import Mathlib

/-!
Verification of the collectune incremental-scan pipeline.

Shallow embedding of the Rust sources under `src/backend/src/`:

* `scanner/types.rs`    — data model (`ExistingFiles`, `FileClassification`,
  `ScanResults`, staging records).
* `scanner/classify.rs` — `classify_file`, `classify_as_new`, `aggregate`,
  `resolve_conflicts`, `detect_deletions`, `classify_all`.
* `scanner/prepare.rs`  — `is_disc_folder`, `album_directory`,
  `collect_albums`, `collect_artists`, `prepare_staging_data`.
* `scanner/metadata.rs` — `parse_tag_value_into_year`,
  `parse_tag_value_into_u8`, `assemble_tags_into_metadata`.
* `server.rs`           — the `POST /query` handler's response decision.

Modelling conventions.  Machine integers are `Nat`/`Int` (sizes `u64`,
mtimes `i64` in microseconds); the 32-byte BLAKE3 hash and the v4 UUIDs
are opaque values of which only equality is used, so both are modelled as
`Nat` (UUID minting becomes drawing from a counter, which models the
collision-freeness the code assumes of `Uuid::new_v4`).  The `f64`
durations flow through the scanner without any arithmetic, so they are
modelled as an opaque `Nat`-valued token.  Rust `HashMap`s are modelled
as association lists with a first-match lookup; `HashSet` membership is
list membership.  The filesystem seen by one scan is a snapshot: an
association list from path strings to the data the scanner can read from
the file (`fs::metadata`'s size and mtime, the BLAKE3 hash of the bytes,
`get_duration`'s result, and `get_track_metadata`'s result).  A path
absent from the snapshot does not exist on disk; `Path::exists` is
lookup success.
-/

namespace Collectune

/-- Opaque stand-in for the 32-byte BLAKE3 content hash (only equality is
ever used by the scanner). -/
abbrev Hash := Nat

/-- Opaque stand-in for a v4 UUID (only equality is ever used). -/
abbrev FileId := Nat

/-- Opaque stand-in for the `f64` duration, which the scanner only moves
around and never computes with. -/
abbrev Duration := Nat

/-- First-match association-list lookup, the model of `HashMap::get`. -/
def alookup {α β : Type} [DecidableEq α] (k : α) : List (α × β) → Option β
  | [] => none
  | (a, b) :: rest => if k = a then some b else alookup k rest

/-- Model of `Option::or_else` / `Entry::or_insert`-style first-writer-wins. -/
def orOpt {α : Type} (a b : Option α) : Option α :=
  match a with
  | some x => some x
  | none => b

/-- `scanner/types.rs` `TrackArtistMetadata`. -/
structure TrackArtistMetadata where
  artist : String
  role : Option String
deriving DecidableEq

/-- `scanner/types.rs` `TrackMetadata` (numeric fields `u8`/`u16` as `Nat`). -/
structure TrackMetadata where
  title : String
  track_number : Option Nat
  disc_number : Option Nat
  genre : String
  album : String
  year : Option Nat
  artists : List TrackArtistMetadata
deriving DecidableEq

/-- Everything one scan can read about one on-disk file: `fs::metadata`'s
size and mtime (microseconds), the BLAKE3 hash of the full bytes
(`hash_file`), `get_duration`'s result, and `get_track_metadata`'s result
(`none` when the decoder fails or panics, in which case the source logs a
warning and drops the file). -/
structure DiskFile where
  size : Nat
  mtime : Int
  hash : Hash
  duration : Duration
  meta : Option (TrackMetadata × Duration)
deriving DecidableEq

/-- The filesystem snapshot a scan runs against. -/
abbrev Fs := List (String × DiskFile)

/-- `scanner/types.rs` `ExistingFiles`: `by_path` maps a live catalog path to
`(id, hash, size, mtime_us)`, `by_hash` maps a content hash to the list of
`(id, path)` rows with that hash, in load order. -/
structure ExistingFiles where
  by_path : List (String × (FileId × Hash × Nat × Int))
  by_hash : List (Hash × List (FileId × String))
deriving DecidableEq

/-- `scanner/types.rs` `NewFileData`. -/
structure NewFileData where
  path : String
  hash : Hash
  size : Nat
  duration : Duration
  mtime : Int
  format : String
  metadata : TrackMetadata
deriving DecidableEq

/-- `scanner/types.rs` `FileClassification`. -/
inductive FileClassification : Type where
  | Skipped (path : String)
  | Moved (id : FileId) (path : String) (mtime : Int)
  | Modified (id : FileId) (path : String) (hash : Hash) (size : Nat)
      (duration : Duration) (mtime : Int)
  | New (data : NewFileData)
deriving DecidableEq

/-- `scanner/types.rs` `MovedEntry`. -/
structure MovedEntry where
  id : FileId
  path : String
  mtime : Int
deriving DecidableEq

/-- `scanner/types.rs` `ModifiedEntry`. -/
structure ModifiedEntry where
  id : FileId
  path : String
  hash : Hash
  size : Nat
  duration : Duration
  mtime : Int
deriving DecidableEq

/-- `scanner/types.rs` `ScanResults`. -/
structure ScanResults where
  skipped : List String
  moved : List MovedEntry
  modified : List ModifiedEntry
  new_files : List NewFileData
deriving DecidableEq

/-- `metadata.rs` `get_duration`: probes the file; on any failure the source
returns `0.0`, which the snapshot folds into the stored token (a path not on
disk yields the `0.0` token). -/
def get_duration (fs : Fs) (p : String) : Duration :=
  match alookup p fs with
  | some f => f.duration
  | none => 0

/-- `metadata.rs` `get_track_metadata`: `none` when the file is missing or
the decoder fails/panics. -/
def get_track_metadata (fs : Fs) (p : String) : Option (TrackMetadata × Duration) :=
  match alookup p fs with
  | some f => f.meta
  | none => none

/-- Split a character list at every occurrence of `sep` (the accumulator
holds the current piece reversed). -/
def splitChars (sep : Char) (cur : List Char) : List Char → List (List Char)
  | [] => [cur.reverse]
  | c :: cs =>
    if c = sep then cur.reverse :: splitChars sep [] cs
    else splitChars sep (c :: cur) cs

/-- Split a string at every occurrence of the character `sep`. -/
def splitStr (sep : Char) (s : String) : List String :=
  (splitChars sep [] s.data).map (fun l => String.mk l)

/-- Rust `Path`'s components of a path string: `/`-separated pieces, empty
components collapsing as Rust's component iterator does. -/
def pathComponents (p : String) : List String :=
  (splitStr '/' p).filter (fun s => s ≠ "")

/-- Rust `Path::extension` of the string path: the part of the final
component after its last `.`, none when there is no `.` or when the only
`.` starts a hidden-file name. -/
def extensionOf (p : String) : Option String :=
  match (pathComponents p).getLast? with
  | none => none
  | some name =>
    match splitStr '.' name with
    | [] => none
    | [_] => none
    | first :: rest =>
      if first = "" ∧ rest.length = 1 then none else rest.getLast?

/-- `metadata.rs` `extension_to_format`. -/
def extension_to_format (ext : String) : Option String :=
  match String.mk (ext.data.map Char.toLower) with
  | "aac" => some "aac"
  | "aif" => some "aiff"
  | "aiff" => some "aiff"
  | "alac" => some "alac"
  | "ape" => some "ape"
  | "flac" => some "flac"
  | "m4a" => some "mp4"
  | "mp3" => some "mp3"
  | "ogg" => some "ogg"
  | "opus" => some "opus"
  | "wav" => some "wav"
  | "wma" => some "wma"
  | "wv" => some "wv"
  | _ => none

/-- `classify.rs` `classify_as_new` (lines 100–117): requires a recognized
extension, a successful metadata extraction, and re-reads the size
(`unwrap_or(0)` when the file vanished). -/
def classify_as_new (fs : Fs) (path_str : String) (hash : Hash) (mtime : Int) :
    Option FileClassification :=
  match extensionOf path_str with
  | none => none
  | some ext =>
    match extension_to_format ext with
    | none => none
    | some format =>
      match get_track_metadata fs path_str with
      | none => none
      | some (metadata, duration) =>
        let size := match alookup path_str fs with
          | some f => f.size
          | none => 0
        some (.New { path := path_str, hash := hash, size := size,
                     duration := duration, mtime := mtime, format := format,
                     metadata := metadata })

/-- The `for (id, original_path) in entries` loop of `classify_file`
(lines 86–94): the first hash-matching catalog row whose original path no
longer exists on disk yields a Moved candidate. -/
def first_vacant (fs : Fs) : List (FileId × String) → Option FileId
  | [] => none
  | (id, original_path) :: rest =>
    if (alookup original_path fs).isSome then first_vacant fs rest
    else some id

/-- `classify.rs` `classify_file` (lines 42–98).  A path whose metadata
read fails is dropped (`none`).  A path present in `by_path` is Skipped
when size and mtime both match the stored values; otherwise the bytes are
hashed and the file is recorded as Modified whether or not the hash
changed (the source's two identical `Modified` arms are kept visibly
separate).  A path not in `by_path` is Moved onto the first hash-matched
row whose original path is gone, else handed to `classify_as_new`. -/
def classify_file (fs : Fs) (existing : ExistingFiles) (path : String) :
    Option FileClassification :=
  match alookup path fs with
  | none => none
  | some file =>
    match alookup path existing.by_path with
    | some (id, existing_hash, existing_size, existing_mtime) =>
      if file.size = existing_size ∧ file.mtime = existing_mtime then
        some (.Skipped path)
      else
        let hash := file.hash
        let duration := get_duration fs path
        if hash = existing_hash then
          -- content identical, only the mtime drifted: the source still
          -- records Modified so the new mtime is persisted
          some (.Modified id path hash file.size duration file.mtime)
        else
          some (.Modified id path hash file.size duration file.mtime)
    | none =>
      let hash := file.hash
      let entries := match alookup hash existing.by_hash with
        | some l => l
        | none => []
      match first_vacant fs entries with
      | some id => some (.Moved id path file.mtime)
      | none => classify_as_new fs path hash file.mtime

/-- `classify.rs` `aggregate` (lines 119–156): split the classification
stream into the four buckets, preserving order. -/
def aggregate : List FileClassification → ScanResults
  | [] => { skipped := [], moved := [], modified := [], new_files := [] }
  | c :: rest =>
    let r := aggregate rest
    match c with
    | .Skipped path => { r with skipped := path :: r.skipped }
    | .Moved id path mtime => { r with moved := ⟨id, path, mtime⟩ :: r.moved }
    | .Modified id path hash size duration mtime =>
        { r with modified := ⟨id, path, hash, size, duration, mtime⟩ :: r.modified }
    | .New data => { r with new_files := data :: r.new_files }

/-- `classify.rs` `classify_all` (lines 203–212): classify every discovered
path (rayon's ordered `par_iter().filter_map().collect()` is modelled
sequentially) and aggregate. -/
def classify_all (fs : Fs) (audio_files : List String) (existing : ExistingFiles) :
    ScanResults :=
  aggregate (audio_files.filterMap (classify_file fs existing))

/-- `classify.rs` `resolve_conflicts` (lines 160–175): a Modified entry
whose id also appears among the Moved ids is extracted and re-run through
`classify_as_new`; successful reclassifications are appended to the new
bucket. -/
def resolve_conflicts (fs : Fs) (results : ScanResults) : ScanResults :=
  let moved_ids := results.moved.map (fun m => m.id)
  let conflicting := results.modified.filter (fun m => moved_ids.contains m.id)
  let remaining := results.modified.filter (fun m => !(moved_ids.contains m.id))
  let reclassified := conflicting.filterMap (fun entry =>
    match classify_as_new fs entry.path entry.hash entry.mtime with
    | some (.New data) => some data
    | _ => none)
  { results with
      modified := remaining,
      new_files := results.new_files ++ reclassified }

/-- `detect_deletions`' `known_paths` set (lines 179–192), in the source's
insertion order: skipped, moved (new path), new, modified. -/
def known_paths (results : ScanResults) : List String :=
  results.skipped ++ results.moved.map (fun m => m.path)
    ++ results.new_files.map (fun n => n.path)
    ++ results.modified.map (fun m => m.path)

/-- `classify.rs` `detect_deletions` (lines 178–200): the id of every
`by_path` row whose path the scan did not touch. -/
def detect_deletions (results : ScanResults) (existing : ExistingFiles) :
    List FileId :=
  (existing.by_path.filter
      (fun pr => !((known_paths results).contains pr.1))).map
    (fun pr => pr.2.1)

/-- The size-and-mtime fast path of `classify_file`: a `by_path` hit whose
on-disk size and mtime equal the stored values is Skipped, with no
condition on the file's content hash. -/
theorem classify_skip_of_unchanged (fs : Fs) (ex : ExistingFiles) (p : String)
    (f : DiskFile) (id : FileId) (eh : Hash) (es : Nat) (em : Int)
    (hf : alookup p fs = some f)
    (hp : alookup p ex.by_path = some (id, eh, es, em))
    (hs : f.size = es) (hm : f.mtime = em) :
    classify_file fs ex p = some (.Skipped p) := by
  simp [classify_file, hf, hp, hs, hm]

/-- Claim C5: a discovered file whose path is in `by_path` and whose on-disk
size and mtime both equal the stored values is classified Skipped for every
possible content hash — the decision never consults the file's bytes, so a
content change that preserves size and mtime is never classified Modified.
(The absence of a read is rendered as independence from the `hash` field:
the conclusion holds with the hash universally quantified and unconstrained.) -/
theorem skip_fast_path_ignores_content (fs : Fs) (ex : ExistingFiles)
    (p : String) (f : DiskFile) (id : FileId) (eh : Hash) (es : Nat) (em : Int)
    (hf : alookup p fs = some f)
    (hp : alookup p ex.by_path = some (id, eh, es, em))
    (hs : f.size = es) (hm : f.mtime = em) :
    classify_file fs ex p = some (.Skipped p) := by
  simp [classify_file, hf, hp, hs, hm]

/-- Witness for C5 at a concrete input where the stored hash is 7 but the
on-disk bytes hash to 8 (a content change preserving size and mtime): the
classifier still answers Skipped. -/
theorem skip_fast_path_ignores_content_witness :
    (8 : Hash) ≠ 7 ∧
    classify_file [("a", ⟨4, 3, 8, 0, none⟩)]
      ⟨[("a", (1, 7, 4, 3))], [(7, [(1, "a")])]⟩ "a" = some (.Skipped "a") :=
  ⟨by decide,
    skip_fast_path_ignores_content [("a", ⟨4, 3, 8, 0, none⟩)]
      ⟨[("a", (1, 7, 4, 3))], [(7, [(1, "a")])]⟩ "a"
      ⟨4, 3, 8, 0, none⟩ 1 7 4 3 rfl rfl rfl rfl⟩

/-- Claim C2 fails on the code: at a path present in `by_path` whose stored
hash 7 equals the hash of the current bytes, but whose mtime drifted from
3 to 9, the classifier answers Modified, not Skipped — so "Skipped exactly
when the hash matches" is false, and the hash is not even computed on the
Skipped path. -/
theorem modified_despite_equal_hash :
    (alookup "a" (ExistingFiles.by_path
        ⟨[("a", (5, 7, 4, 3))], [(7, [(5, "a")])]⟩) = some (5, 7, 4, 3))
    ∧ (⟨4, 9, 7, 2, none⟩ : DiskFile).hash = 7
    ∧ classify_file [("a", ⟨4, 9, 7, 2, none⟩)]
        ⟨[("a", (5, 7, 4, 3))], [(7, [(5, "a")])]⟩ "a"
        = some (.Modified 5 "a" 7 4 2 9) := by
  refine ⟨rfl, rfl, ?_⟩
  decide

/-- Claim C2 as amended: for a discovered file whose path is in `by_path`,
the classifier answers Skipped exactly when the on-disk size and mtime both
equal the stored values (in which case no hash is computed), and otherwise
Modified carrying the freshly computed hash, size, re-read duration and
mtime — even when that hash equals the stored one. -/
theorem path_hit_skip_or_modified (fs : Fs) (ex : ExistingFiles) (p : String)
    (f : DiskFile) (id : FileId) (eh : Hash) (es : Nat) (em : Int)
    (hf : alookup p fs = some f)
    (hp : alookup p ex.by_path = some (id, eh, es, em)) :
    classify_file fs ex p =
      if f.size = es ∧ f.mtime = em then some (.Skipped p)
      else some (.Modified id p f.hash f.size (get_duration fs p) f.mtime) := by
  by_cases h : f.size = es ∧ f.mtime = em
  · simp [classify_file, hf, hp, h]
  · simp only [classify_file, hf, hp, if_neg h]
    by_cases hh : f.hash = eh <;> simp [hh]

/-- Witness for the amended C2 at a concrete mtime-drifted input. -/
theorem path_hit_skip_or_modified_witness :
    classify_file [("a", ⟨4, 9, 7, 2, none⟩)]
        ⟨[("a", (5, 7, 4, 3))], [(7, [(5, "a")])]⟩ "a"
      = (if (4 : Nat) = 4 ∧ (9 : Int) = 3 then some (.Skipped "a")
         else some (.Modified 5 "a" 7 4
           (get_duration [("a", ⟨4, 9, 7, 2, none⟩)] "a") 9)) :=
  path_hit_skip_or_modified [("a", ⟨4, 9, 7, 2, none⟩)]
    ⟨[("a", (5, 7, 4, 3))], [(7, [(5, "a")])]⟩ "a"
    ⟨4, 9, 7, 2, none⟩ 5 7 4 3 rfl rfl

/-- Claim C1 fails on the code (a bug in `detect_deletions`): with the
catalog holding id 5 at path "a" (hash 7) and the disk holding the same
bytes only at path "b", the scan classifies "b" as Moved adopting id 5, yet
deletion detection also emits id 5, because the moved file's original path
"a" is a `by_path` key that no classification touched.  The moved bucket
and the deletion set are not disjoint on ids: the freshly moved row would
be tombstoned by the same commit that moves it. -/
theorem moved_id_also_emitted_as_deleted :
    (resolve_conflicts [("b", ⟨4, 10, 7, 0, none⟩)]
        (classify_all [("b", ⟨4, 10, 7, 0, none⟩)] ["b"]
          ⟨[("a", (5, 7, 4, 3))], [(7, [(5, "a")])]⟩)).moved
      = [⟨5, "b", 10⟩]
    ∧ detect_deletions
        (resolve_conflicts [("b", ⟨4, 10, 7, 0, none⟩)]
          (classify_all [("b", ⟨4, 10, 7, 0, none⟩)] ["b"]
            ⟨[("a", (5, 7, 4, 3))], [(7, [(5, "a")])]⟩))
        ⟨[("a", (5, 7, 4, 3))], [(7, [(5, "a")])]⟩
      = [5] := by
  decide

/-- Claim C3 fails on the code: with the catalog holding id 5 at the now
vacant path "a" and identical bytes discovered at both "b" and "c", both
files are classified Moved with id 5, and `resolve_conflicts` leaves both
duplicate claims in the moved bucket — nothing is reclassified as New. -/
theorem duplicate_moved_claims_survive :
    ((resolve_conflicts [("b", ⟨4, 1, 7, 0, none⟩), ("c", ⟨4, 2, 7, 0, none⟩)]
        (classify_all [("b", ⟨4, 1, 7, 0, none⟩), ("c", ⟨4, 2, 7, 0, none⟩)]
          ["b", "c"] ⟨[("a", (5, 7, 4, 3))], [(7, [(5, "a")])]⟩)).moved
      = [⟨5, "b", 1⟩, ⟨5, "c", 2⟩])
    ∧ ((resolve_conflicts [("b", ⟨4, 1, 7, 0, none⟩), ("c", ⟨4, 2, 7, 0, none⟩)]
        (classify_all [("b", ⟨4, 1, 7, 0, none⟩), ("c", ⟨4, 2, 7, 0, none⟩)]
          ["b", "c"] ⟨[("a", (5, 7, 4, 3))], [(7, [(5, "a")])]⟩)).new_files
      = []) := by
  decide

/-- Claim C3 as amended: the reconciler's conflict pass never removes or
reclassifies Moved entries — duplicate Moved claims on the same id all
remain in the moved bucket — and when the modified bucket is empty the
pass changes nothing at all; it only extracts Modified entries whose id
also appears among the moved ids. -/
theorem conflict_pass_leaves_moved_bucket (fs : Fs) (r : ScanResults) :
    (resolve_conflicts fs r).moved = r.moved
    ∧ resolve_conflicts fs { r with modified := [] } = { r with modified := [] } := by
  constructor
  · rfl
  · simp [resolve_conflicts]

/-- `filterMap classify_file` degenerates to a map when every discovered
path classifies as Skipped. -/
theorem filterMap_classify_skipped (fs : Fs) (ex : ExistingFiles) :
    ∀ l : List String, (∀ p ∈ l, classify_file fs ex p = some (.Skipped p)) →
      l.filterMap (classify_file fs ex)
        = l.map (fun p => FileClassification.Skipped p)
  | [], _ => rfl
  | p :: rest, h => by
    have hp := h p (List.mem_cons_self p rest)
    have hrest := filterMap_classify_skipped fs ex rest
      (fun q hq => h q (List.mem_cons_of_mem _ hq))
    simp [List.filterMap_cons, hp, hrest]

/-- Aggregating a pure-Skipped classification stream fills only the
skipped bucket, in order. -/
theorem aggregate_map_skipped :
    ∀ l : List String,
      aggregate (l.map (fun p => FileClassification.Skipped p))
        = ⟨l, [], [], []⟩
  | [] => rfl
  | p :: rest => by
    simp [aggregate, aggregate_map_skipped rest]

/-- Claim C4: on an unchanged tree — the discovered audio files are exactly
the live catalog paths (`by_path`, which the loader fills only from rows
with `deletion IS NULL`), each with its stored hash, size and mtime intact —
the scan yields no new, moved, modified or deleted entries, and skips
exactly as many files as the catalog holds. -/
theorem unchanged_tree_counts (fs : Fs) (ex : ExistingFiles)
    (audio : List String)
    (hperm : audio.Perm (ex.by_path.map Prod.fst))
    (hunch : ∀ p ∈ audio, ∃ f id eh es em,
        alookup p fs = some f ∧ alookup p ex.by_path = some (id, eh, es, em)
        ∧ f.hash = eh ∧ f.size = es ∧ f.mtime = em) :
    (resolve_conflicts fs (classify_all fs audio ex)).new_files = []
    ∧ (resolve_conflicts fs (classify_all fs audio ex)).moved = []
    ∧ (resolve_conflicts fs (classify_all fs audio ex)).modified = []
    ∧ detect_deletions (resolve_conflicts fs (classify_all fs audio ex)) ex = []
    ∧ (resolve_conflicts fs (classify_all fs audio ex)).skipped.length
        = ex.by_path.length := by
  have hskip : ∀ p ∈ audio, classify_file fs ex p = some (.Skipped p) := by
    intro p hp
    obtain ⟨f, id, eh, es, em, hf, hpe, _, hs, hm⟩ := hunch p hp
    exact classify_skip_of_unchanged fs ex p f id eh es em hf hpe hs hm
  have hall : classify_all fs audio ex = ⟨audio, [], [], []⟩ := by
    unfold classify_all
    rw [filterMap_classify_skipped fs ex audio hskip, aggregate_map_skipped]
  have hres : resolve_conflicts fs (⟨audio, [], [], []⟩ : ScanResults)
      = ⟨audio, [], [], []⟩ := by
    simp [resolve_conflicts]
  have hdel : detect_deletions (⟨audio, [], [], []⟩ : ScanResults) ex = [] := by
    unfold detect_deletions
    have hfil : ex.by_path.filter
        (fun pr => !((known_paths ⟨audio, [], [], []⟩).contains pr.1)) = [] := by
      rw [List.filter_eq_nil_iff]
      intro pr hpr
      have h1 : pr.1 ∈ audio :=
        hperm.mem_iff.mpr (List.mem_map_of_mem Prod.fst hpr)
      have h2 : pr.1 ∈ known_paths ⟨audio, [], [], []⟩ := by
        simp [known_paths, h1]
      simp [h2]
    rw [hfil]
    rfl
  refine ⟨?_, ?_, ?_, ?_, ?_⟩
  · rw [hall, hres]
  · rw [hall, hres]
  · rw [hall, hres]
  · rw [hall, hres, hdel]
  · rw [hall, hres]
    simpa using hperm.length_eq

/-- Witness for C4: a one-file catalog whose file is unchanged on disk
scans to 1 skipped, 0 moved, 0 modified, 0 new, 0 deleted. -/
theorem unchanged_tree_counts_witness :
    (resolve_conflicts [("a", ⟨4, 3, 7, 0, none⟩)]
        (classify_all [("a", ⟨4, 3, 7, 0, none⟩)] ["a"]
          ⟨[("a", (1, 7, 4, 3))], [(7, [(1, "a")])]⟩)).new_files = []
    ∧ (resolve_conflicts [("a", ⟨4, 3, 7, 0, none⟩)]
        (classify_all [("a", ⟨4, 3, 7, 0, none⟩)] ["a"]
          ⟨[("a", (1, 7, 4, 3))], [(7, [(1, "a")])]⟩)).moved = []
    ∧ (resolve_conflicts [("a", ⟨4, 3, 7, 0, none⟩)]
        (classify_all [("a", ⟨4, 3, 7, 0, none⟩)] ["a"]
          ⟨[("a", (1, 7, 4, 3))], [(7, [(1, "a")])]⟩)).modified = []
    ∧ detect_deletions
        (resolve_conflicts [("a", ⟨4, 3, 7, 0, none⟩)]
          (classify_all [("a", ⟨4, 3, 7, 0, none⟩)] ["a"]
            ⟨[("a", (1, 7, 4, 3))], [(7, [(1, "a")])]⟩))
        ⟨[("a", (1, 7, 4, 3))], [(7, [(1, "a")])]⟩ = []
    ∧ (resolve_conflicts [("a", ⟨4, 3, 7, 0, none⟩)]
        (classify_all [("a", ⟨4, 3, 7, 0, none⟩)] ["a"]
          ⟨[("a", (1, 7, 4, 3))], [(7, [(1, "a")])]⟩)).skipped.length
      = (ExistingFiles.by_path ⟨[("a", (1, 7, 4, 3))], [(7, [(1, "a")])]⟩).length :=
  unchanged_tree_counts [("a", ⟨4, 3, 7, 0, none⟩)]
    ⟨[("a", (1, 7, 4, 3))], [(7, [(1, "a")])]⟩ ["a"]
    (List.Perm.refl _)
    (by
      intro p hp
      have hpa : p = "a" := by simpa using hp
      subst hpa
      exact ⟨⟨4, 3, 7, 0, none⟩, 1, 7, 4, 3, rfl, rfl, rfl, rfl, rfl⟩)

/-- Rust `char::is_whitespace` (the Unicode White_Space property), used by
`str::trim`. -/
def isRustWhitespace (c : Char) : Bool :=
  let n := c.toNat
  n == 0x09 || n == 0x0A || n == 0x0B || n == 0x0C || n == 0x0D ||
  n == 0x20 || n == 0x85 || n == 0xA0 || n == 0x1680 ||
  decide (0x2000 ≤ n ∧ n ≤ 0x200A) ||
  n == 0x2028 || n == 0x2029 || n == 0x202F || n == 0x205F || n == 0x3000

/-- Rust `str::trim` on a character list: drop whitespace from both ends. -/
def trimChars (l : List Char) : List Char :=
  ((l.dropWhile isRustWhitespace).reverse.dropWhile isRustWhitespace).reverse

/-- Rust `str::strip_prefix` on character lists: `some rest` when the second
list starts with the first. -/
def dropStart : List Char → List Char → Option (List Char)
  | [], s => some s
  | _ :: _, [] => none
  | p :: ps, c :: cs => if c = p then dropStart ps cs else none

/-- `prepare.rs` `DISC_FOLDER_PATTERN` (line 11). -/
def DISC_FOLDER_PATTERN : List String := ["disc", "cd", "disk"]

/-- `prepare.rs` `is_disc_folder` (lines 13–22): lowercase the name
(ASCII-only lowering, as `to_ascii_lowercase`), then for some pattern word
the remainder after stripping it trims to a non-empty all-ASCII-digit run.
`Char.toLower` lowers exactly `A`–`Z`, matching `to_ascii_lowercase`;
`Char.isDigit` is exactly `is_ascii_digit`. -/
def is_disc_folder (name : String) : Bool :=
  let lower := name.data.map Char.toLower
  DISC_FOLDER_PATTERN.any fun pat =>
    match dropStart pat.data lower with
    | some rest =>
      (trimChars rest).all Char.isDigit && !(trimChars rest).isEmpty
    | none => false

/-- `prepare.rs` `album_directory` (lines 25–34), on `/`-component lists:
`parent` is the list without its final (file-name) component; when the
parent has no final component (`Path::file_name` is `none` for an empty or
root parent) the result is `none`; a disc-folder parent steps up one more
level. -/
def album_directory (p : List String) : Option (List String) :=
  match p.dropLast.getLast? with
  | none => none
  | some dir_name =>
    if is_disc_folder dir_name then some p.dropLast.dropLast
    else some p.dropLast

/-- `album_directory` applied to the scanner's string paths. -/
def album_directory_of (p : String) : Option (List String) :=
  album_directory (pathComponents p)

/-- Claim C6: the album directory is the file's immediate parent, except
that a parent whose basename is a disc folder (case-insensitive
`disc`/`cd`/`disk` plus a whitespace-trimmed non-empty ASCII-digit run)
yields the grandparent; a file with no parent directory yields none; and
the spec's example names classify as stated. -/
theorem album_directory_rule :
    (∀ (pre : List String) (d fname : String),
      album_directory (pre ++ [d, fname])
        = if is_disc_folder d then some pre else some (pre ++ [d]))
    ∧ (∀ fname : String, album_directory [fname] = none)
    ∧ is_disc_folder "Disc 2" = true
    ∧ is_disc_folder "CD01" = true
    ∧ is_disc_folder "disk 3" = true
    ∧ is_disc_folder "CD" = false
    ∧ is_disc_folder "Disc A" = false
    ∧ is_disc_folder "Disc 2a" = false := by
  refine ⟨?_, ?_, by decide, by decide, by decide, by decide, by decide, by decide⟩
  · intro pre d fname
    have hsplit : pre ++ [d, fname] = (pre ++ [d]) ++ [fname] := by simp
    have h1 : (pre ++ [d, fname]).dropLast = pre ++ [d] := by
      rw [hsplit, List.dropLast_concat]
    unfold album_directory
    rw [h1, List.getLast?_concat]
    by_cases hd : is_disc_folder d = true
    · simp [hd, List.dropLast_concat]
    · simp [hd]
  · intro fname
    rfl

/-- The key albums are grouped by: `(album_title, album_directory)`. -/
abbrev AlbumKey := String × List String

/-- `prepare.rs` line 63–64: the album key of a new file, with
`unwrap_or_default()` turning a missing album directory into the empty
path. -/
def albumKey (nf : NewFileData) : AlbumKey :=
  (nf.metadata.album, (album_directory_of nf.path).getD [])

/-- `scanner/types.rs` `StagingArtist`. -/
structure StagingArtist where
  id : Nat
  name : String
deriving DecidableEq

/-- `scanner/types.rs` `StagingAlbum`. -/
structure StagingAlbum where
  id : Nat
  title : String
  year : Option Nat
deriving DecidableEq

/-- `scanner/types.rs` `StagingFile`. -/
structure StagingFile where
  id : Nat
  path : String
  hash : Hash
  size : Nat
  format : String
  duration : Duration
  mtime : Int
deriving DecidableEq

/-- `scanner/types.rs` `StagingTrack`. -/
structure StagingTrack where
  id : Nat
  file : Nat
  title : String
  album : Option Nat
  disc_number : Option Nat
  track_number : Option Nat
  genre : String
deriving DecidableEq

/-- `scanner/types.rs` `StagingCredit` (`ord` is the artist's position in
the file's tag list; the source stores it as `i as f64`). -/
structure StagingCredit where
  track : Nat
  artist : Nat
  ord : Nat
  role : Option String
deriving DecidableEq

/-- `scanner/types.rs` `StagingMoved`. -/
structure StagingMoved where
  id : Nat
  new_path : String
  mtime : Int
deriving DecidableEq

/-- `scanner/types.rs` `StagingModified`. -/
structure StagingModified where
  id : Nat
  hash : Hash
  size : Nat
  duration : Duration
  mtime : Int
deriving DecidableEq

/-- `scanner/types.rs` `StagingDeleted`. -/
structure StagingDeleted where
  file_id : Nat
  deletion_id : Nat
deriving DecidableEq

/-- `scanner/types.rs` `StagingData`. -/
structure StagingData where
  artists : List StagingArtist
  albums : List StagingAlbum
  files : List StagingFile
  tracks : List StagingTrack
  credits : List StagingCredit
  moved : List StagingMoved
  modified : List StagingModified
  deleted : List StagingDeleted
deriving DecidableEq

/-- The mutable state of `collect_albums`' loop: the key-to-id map, the
id-to-year map, and the fresh-UUID supply (a counter models the
collision-free `Uuid::new_v4`). -/
structure AlbumAcc where
  album_map : List (AlbumKey × Nat)
  album_years : List (Nat × Option Nat)
  next : Nat
deriving DecidableEq

/-- `HashMap::entry(k).or_insert(v)`: insert only when the key is absent. -/
def orInsert (k : Nat) (v : Option Nat) (l : List (Nat × Option Nat)) :
    List (Nat × Option Nat) :=
  if (alookup k l).isSome then l else (k, v) :: l

/-- The loop body of `prepare.rs` `collect_albums` (lines 62–67):
`album_map.entry(key).or_insert_with(new_v4)` then
`album_years.entry(album_id).or_insert(year)`. -/
def collect_albums_from (acc : AlbumAcc) : List NewFileData → AlbumAcc
  | [] => acc
  | nf :: rest =>
    match alookup (albumKey nf) acc.album_map with
    | some id =>
      collect_albums_from
        { acc with album_years := orInsert id nf.metadata.year acc.album_years }
        rest
    | none =>
      collect_albums_from
        { album_map := (albumKey nf, acc.next) :: acc.album_map,
          album_years := orInsert acc.next nf.metadata.year acc.album_years,
          next := acc.next + 1 }
        rest

/-- `prepare.rs` `collect_albums`' fold, starting from empty maps and the
given fresh-id supply. -/
def collect_albums (nfs : List NewFileData) (start : Nat) : AlbumAcc :=
  collect_albums_from ⟨[], [], start⟩ nfs

/-- The `staging_albums` construction of `collect_albums` (lines 69–76):
one row per `album_map` entry, the year `album_years.get(&id)` flattened. -/
def staging_albums_of (acc : AlbumAcc) : List StagingAlbum :=
  acc.album_map.map (fun pr =>
    { id := pr.2, title := pr.1.1,
      year := (alookup pr.2 acc.album_years).getD none })

/-- The inner loop of `prepare.rs` `collect_artists` (lines 43–54) over one
file's artist list, interning unseen names with fresh ids. -/
def intern_artists (st : List (String × Nat) × List StagingArtist × Nat) :
    List TrackArtistMetadata → List (String × Nat) × List StagingArtist × Nat
  | [] => st
  | ta :: rest =>
    match alookup ta.artist st.1 with
    | some _ => intern_artists st rest
    | none =>
      intern_artists
        ((ta.artist, st.2.2) :: st.1, st.2.1 ++ [⟨st.2.2, ta.artist⟩], st.2.2 + 1)
        rest

/-- `prepare.rs` `collect_artists` (lines 36–56): fold `intern_artists`
over the new files, starting from the existing-artist map. -/
def collect_artists_from
    (st : List (String × Nat) × List StagingArtist × Nat) :
    List NewFileData → List (String × Nat) × List StagingArtist × Nat
  | [] => st
  | nf :: rest => collect_artists_from (intern_artists st nf.metadata.artists) rest

/-- The per-new-file loop of `prepare_staging_data` (lines 131–169): mint a
file id and a track id, emit one staging file and one staging track (whose
`album` is the `album_map` lookup of the file's key), and one credit per
artist found in `all_artists`, `ord` being its enumeration index. -/
def stage_new_files (album_map : List (AlbumKey × Nat))
    (all_artists : List (String × Nat)) :
    List NewFileData → Nat →
      List StagingFile × List StagingTrack × List StagingCredit
  | [], _ => ([], [], [])
  | nf :: rest, ctr =>
    let file_id := ctr
    let track_id := ctr + 1
    let later := stage_new_files album_map all_artists rest (ctr + 2)
    let album_id := alookup (albumKey nf) album_map
    let credits := nf.metadata.artists.enum.filterMap (fun pr =>
      match alookup pr.2.artist all_artists with
      | some artist_id => some (⟨track_id, artist_id, pr.1, pr.2.role⟩ : StagingCredit)
      | none => none)
    (⟨file_id, nf.path, nf.hash, nf.size, nf.format, nf.duration, nf.mtime⟩
        :: later.1,
     ⟨track_id, file_id, nf.metadata.title, album_id, nf.metadata.disc_number,
        nf.metadata.track_number, nf.metadata.genre⟩ :: later.2.1,
     credits ++ later.2.2)

/-- `prepare.rs` `collect_changes` (lines 81–117): map moved and modified
1-to-1; all deletions share the one freshly minted `deletion_id`. -/
def collect_changes (results : ScanResults) (deleted_ids : List FileId)
    (deletion_id : Nat) :
    List StagingMoved × List StagingModified × List StagingDeleted :=
  (results.moved.map (fun m => ⟨m.id, m.path, m.mtime⟩),
   results.modified.map (fun m => ⟨m.id, m.hash, m.size, m.duration, m.mtime⟩),
   deleted_ids.map (fun f => ⟨f, deletion_id⟩))

/-- `prepare.rs` `prepare_staging_data` (lines 119–183), the fresh-UUID
supply threaded as a counter: artists, then albums, then per-file file and
track ids, then the scan's deletion id. -/
def prepare_staging_data (results : ScanResults)
    (existing_artists : List (String × Nat)) (deleted_ids : List FileId)
    (c0 : Nat) : StagingData :=
  let artistSt := collect_artists_from (existing_artists, [], c0) results.new_files
  let acc := collect_albums results.new_files artistSt.2.2
  let staged := stage_new_files acc.album_map artistSt.1 results.new_files acc.next
  let deletion_id := acc.next + 2 * results.new_files.length
  let changes := collect_changes results deleted_ids deletion_id
  { artists := artistSt.2.1, albums := staging_albums_of acc,
    files := staged.1, tracks := staged.2.1, credits := staged.2.2,
    moved := changes.1, modified := changes.2.1, deleted := changes.2.2 }

/-- A successful lookup exhibits a member pair. -/
theorem alookup_mem {α β : Type} [DecidableEq α] {k : α} {v : β}
    {l : List (α × β)} (h : alookup k l = some v) : (k, v) ∈ l := by
  induction l with
  | nil => simp [alookup] at h
  | cons e rest ih =>
    obtain ⟨a, b⟩ := e
    by_cases hk : k = a
    · subst hk
      simp [alookup] at h
      subst h
      exact List.mem_cons_self _ _
    · rw [alookup, if_neg hk] at h
      exact List.mem_cons_of_mem _ (ih h)

/-- Lookup succeeds exactly on the keys. -/
theorem alookup_isSome_iff {α β : Type} [DecidableEq α] (k : α)
    (l : List (α × β)) : (alookup k l).isSome ↔ k ∈ l.map Prod.fst := by
  induction l with
  | nil => simp [alookup]
  | cons e rest ih =>
    obtain ⟨a, b⟩ := e
    by_cases hk : k = a <;> simp [alookup, hk, ih]

/-- A key larger than every stored key is absent. -/
theorem alookup_eq_none_of_big {β : Type} (n : Nat) (l : List (Nat × β))
    (h : ∀ e ∈ l, e.1 < n) : alookup n l = none := by
  induction l with
  | nil => rfl
  | cons e rest ih =>
    obtain ⟨a, b⟩ := e
    have ha : a < n := h (a, b) (List.mem_cons_self _ _)
    have hne : n ≠ a := by omega
    rw [alookup, if_neg hne]
    exact ih (fun e he => h e (List.mem_cons_of_mem _ he))

/-- With duplicate-free keys, every member pair is found by lookup. -/
theorem alookup_self_of_nodup {α β : Type} [DecidableEq α]
    {l : List (α × β)} (hnd : (l.map Prod.fst).Nodup)
    {e : α × β} (he : e ∈ l) : alookup e.1 l = some e.2 := by
  induction l with
  | nil => cases he
  | cons hd rest ih =>
    obtain ⟨a, b⟩ := hd
    rw [List.map_cons, List.nodup_cons] at hnd
    rcases List.mem_cons.mp he with heq | hmem
    · subst heq
      simp [alookup]
    · have hne : e.1 ≠ a := by
        intro hEq
        have hm : e.1 ∈ rest.map Prod.fst := List.mem_map_of_mem Prod.fst hmem
        rw [hEq] at hm
        exact hnd.1 hm
      rw [alookup, if_neg hne]
      exact ih hnd.2 hmem

/-- `orInsert` is the identity when the key is already present. -/
theorem orInsert_of_isSome {k : Nat} {v : Option Nat}
    {l : List (Nat × Option Nat)} (h : (alookup k l).isSome) :
    orInsert k v l = l := by
  rw [orInsert, if_pos h]

/-- `orInsert` prepends when the key is absent. -/
theorem orInsert_of_none {k : Nat} {v : Option Nat}
    {l : List (Nat × Option Nat)} (h : alookup k l = none) :
    orInsert k v l = (k, v) :: l := by
  rw [orInsert, if_neg (by simp [h])]

/-- The loop invariant of `collect_albums`: every mapped id and every
year-keyed id is below the fresh-supply counter, keys and ids are
duplicate-free, and every mapped id already has a year entry. -/
structure AccInv (acc : AlbumAcc) : Prop where
  map_lt : ∀ e ∈ acc.album_map, e.2 < acc.next
  years_lt : ∀ e ∈ acc.album_years, e.1 < acc.next
  keys_nodup : (acc.album_map.map Prod.fst).Nodup
  ids_nodup : (acc.album_map.map Prod.snd).Nodup
  years_covers : ∀ e ∈ acc.album_map, (alookup e.2 acc.album_years).isSome
/-- Unfolding equation of `collect_albums_from` when the key is present. -/
theorem collect_albums_from_cons_found (acc : AlbumAcc) (nf : NewFileData)
    (rest : List NewFileData) (id : Nat)
    (h : alookup (albumKey nf) acc.album_map = some id) :
    collect_albums_from acc (nf :: rest)
      = collect_albums_from
          { acc with album_years := orInsert id nf.metadata.year acc.album_years }
          rest := by
  simp only [collect_albums_from, h]

/-- Unfolding equation of `collect_albums_from` when the key is absent. -/
theorem collect_albums_from_cons_new (acc : AlbumAcc) (nf : NewFileData)
    (rest : List NewFileData)
    (h : alookup (albumKey nf) acc.album_map = none) :
    collect_albums_from acc (nf :: rest)
      = collect_albums_from
          ⟨(albumKey nf, acc.next) :: acc.album_map,
           orInsert acc.next nf.metadata.year acc.album_years,
           acc.next + 1⟩ rest := by
  simp only [collect_albums_from, h]

/-- Full functional specification of `collect_albums`' fold: the invariant
is preserved, the counter grows, the final key set is the old one plus the
keys of the processed files, existing entries (and their years) are stable,
a key first created during the fold carries the year of the first processed
file with that key, and every final entry is an old one or has a fresh id. -/
theorem collect_albums_from_spec :
    ∀ (nfs : List NewFileData) (acc : AlbumAcc), AccInv acc →
      AccInv (collect_albums_from acc nfs)
      ∧ acc.next ≤ (collect_albums_from acc nfs).next
      ∧ (∀ k, (alookup k (collect_albums_from acc nfs).album_map).isSome
          ↔ ((alookup k acc.album_map).isSome ∨ ∃ nf ∈ nfs, albumKey nf = k))
      ∧ (∀ k id, alookup k acc.album_map = some id →
          alookup k (collect_albums_from acc nfs).album_map = some id
          ∧ alookup id (collect_albums_from acc nfs).album_years
              = alookup id acc.album_years)
      ∧ (∀ k id, alookup k acc.album_map = none →
          alookup k (collect_albums_from acc nfs).album_map = some id →
          alookup id (collect_albums_from acc nfs).album_years
            = (nfs.find? (fun nf => albumKey nf = k)).map
                (fun nf => nf.metadata.year))
      ∧ (∀ e ∈ (collect_albums_from acc nfs).album_map,
          e ∈ acc.album_map ∨ acc.next ≤ e.2)
  | [], acc, hinv => by
    refine ⟨hinv, Nat.le_refl _, ?_, ?_, ?_, ?_⟩
    · intro k; simp [collect_albums_from]
    · intro k id h; exact ⟨h, rfl⟩
    · intro k id hnone hsome
      rw [collect_albums_from] at hsome
      rw [hnone] at hsome
      cases hsome
    · intro e he; exact Or.inl (by simpa [collect_albums_from] using he)
  | nf :: rest, acc, hinv => by
    cases hid : alookup (albumKey nf) acc.album_map with
    | some id0 =>
      -- existing key: `or_insert` on the year map is a no-op, the step keeps acc
      have hcover : (alookup id0 acc.album_years).isSome :=
        hinv.years_covers _ (alookup_mem hid)
      have hstep : collect_albums_from acc (nf :: rest)
          = collect_albums_from acc rest := by
        rw [collect_albums_from_cons_found acc nf rest id0 hid,
          orInsert_of_isSome hcover]
      obtain ⟨ih1, ih2, ih3, ih4, ih5, ih6⟩ :=
        collect_albums_from_spec rest acc hinv
      rw [hstep]
      refine ⟨ih1, ih2, ?_, ih4, ?_, ih6⟩
      · intro k
        rw [ih3 k]
        constructor
        · rintro (hk | ⟨nf', hnf', hkey⟩)
          · exact Or.inl hk
          · exact Or.inr ⟨nf', List.mem_cons_of_mem _ hnf', hkey⟩
        · rintro (hk | ⟨nf', hnf', hkey⟩)
          · exact Or.inl hk
          · rcases List.mem_cons.mp hnf' with rfl | hmem
            · rw [← hkey]
              exact Or.inl (by simp [hid])
            · exact Or.inr ⟨nf', hmem, hkey⟩
      · intro k id hnone2 hsome2
        have hne : ¬ (albumKey nf = k) := by
          intro hEq
          rw [hEq, hnone2] at hid
          cases hid
        have hfind : (nf :: rest).find? (fun nf' => albumKey nf' = k)
            = rest.find? (fun nf' => albumKey nf' = k) :=
          List.find?_cons_of_neg _ (by simpa using hne)
        rw [hfind]
        exact ih5 k id hnone2 hsome2
    | none =>
      -- new key: a fresh id is minted and seeded with this file's year
      have hyearsnone : alookup acc.next acc.album_years = none :=
        alookup_eq_none_of_big _ _ hinv.years_lt
      have hstep : collect_albums_from acc (nf :: rest)
          = collect_albums_from
              ⟨(albumKey nf, acc.next) :: acc.album_map,
               (acc.next, nf.metadata.year) :: acc.album_years,
               acc.next + 1⟩ rest := by
        rw [collect_albums_from_cons_new acc nf rest hid,
          orInsert_of_none hyearsnone]
      set acc' : AlbumAcc :=
        ⟨(albumKey nf, acc.next) :: acc.album_map,
         (acc.next, nf.metadata.year) :: acc.album_years,
         acc.next + 1⟩ with hacc'
      have hinv' : AccInv acc' := by
        refine ⟨?_, ?_, ?_, ?_, ?_⟩
        · intro e he
          rcases List.mem_cons.mp he with rfl | hmem
          · exact Nat.lt_succ_self _
          · exact Nat.lt_succ_of_lt (hinv.map_lt e hmem)
        · intro e he
          rcases List.mem_cons.mp he with rfl | hmem
          · exact Nat.lt_succ_self _
          · exact Nat.lt_succ_of_lt (hinv.years_lt e hmem)
        · rw [hacc']
          rw [List.map_cons, List.nodup_cons]
          refine ⟨?_, hinv.keys_nodup⟩
          intro hk
          have := (alookup_isSome_iff (albumKey nf) acc.album_map).mpr hk
          rw [hid] at this
          cases this
        · rw [hacc']
          rw [List.map_cons, List.nodup_cons]
          refine ⟨?_, hinv.ids_nodup⟩
          intro hk
          obtain ⟨e, he, heq⟩ := List.mem_map.mp hk
          exact absurd (heq ▸ hinv.map_lt e he) (Nat.lt_irrefl _)
        · intro e he
          rcases List.mem_cons.mp he with rfl | hmem
          · simp [hacc', alookup]
          · have hlt : e.2 < acc.next := hinv.map_lt e hmem
            have hne : e.2 ≠ acc.next := Nat.ne_of_lt hlt
            rw [hacc']
            show (alookup e.2 ((acc.next, nf.metadata.year) :: acc.album_years)).isSome
            rw [alookup, if_neg hne]
            exact hinv.years_covers e hmem
      obtain ⟨ih1, ih2, ih3, ih4, ih5, ih6⟩ :=
        collect_albums_from_spec rest acc' hinv'
      rw [hstep]
      refine ⟨ih1, ?_, ?_, ?_, ?_, ?_⟩
      · exact Nat.le_trans (Nat.le_succ _) ih2
      · intro k
        rw [ih3 k]
        have hcons : (alookup k acc'.album_map).isSome
            ↔ (k = albumKey nf ∨ (alookup k acc.album_map).isSome) := by
          by_cases hk : k = albumKey nf <;> simp [hacc', alookup, hk]
        rw [hcons]
        constructor
        · rintro ((rfl | hk) | ⟨nf', hnf', hkey⟩)
          · exact Or.inr ⟨nf, List.mem_cons_self _ _, rfl⟩
          · exact Or.inl hk
          · exact Or.inr ⟨nf', List.mem_cons_of_mem _ hnf', hkey⟩
        · rintro (hk | ⟨nf', hnf', hkey⟩)
          · exact Or.inl (Or.inr hk)
          · rcases List.mem_cons.mp hnf' with rfl | hmem
            · exact Or.inl (Or.inl hkey.symm)
            · exact Or.inr ⟨nf', hmem, hkey⟩
      · intro k id hk
        have hkne : k ≠ albumKey nf := by
          intro hEq
          rw [hEq, hid] at hk
          cases hk
        have hk' : alookup k acc'.album_map = some id := by
          rw [hacc']
          show alookup k ((albumKey nf, acc.next) :: acc.album_map) = some id
          rw [alookup, if_neg hkne]
          exact hk
        obtain ⟨hmap, hyears⟩ := ih4 k id hk'
        refine ⟨hmap, ?_⟩
        rw [hyears]
        have hidlt : id < acc.next := hinv.map_lt _ (alookup_mem hk)
        have hidne : id ≠ acc.next := Nat.ne_of_lt hidlt
        rw [hacc']
        show alookup id ((acc.next, nf.metadata.year) :: acc.album_years)
            = alookup id acc.album_years
        rw [alookup, if_neg hidne]
      · intro k id hknone hksome
        by_cases hkey : k = albumKey nf
        · have hk' : alookup k acc'.album_map = some acc.next := by
            rw [hacc', hkey]
            show alookup (albumKey nf) ((albumKey nf, acc.next) :: acc.album_map)
                = some acc.next
            rw [alookup, if_pos rfl]
          obtain ⟨hmap, hyears⟩ := ih4 k acc.next hk'
          have hidEq : id = acc.next := by
            rw [hksome] at hmap
            exact Option.some.inj hmap
          rw [hidEq, hyears]
          have hfind : (nf :: rest).find? (fun nf' => albumKey nf' = k)
              = some nf :=
            List.find?_cons_of_pos _ (by simp [hkey])
          rw [hfind]
          rw [hacc']
          show alookup acc.next ((acc.next, nf.metadata.year) :: acc.album_years)
              = some nf.metadata.year
          rw [alookup, if_pos rfl]
        · have hk' : alookup k acc'.album_map = none := by
            rw [hacc']
            show alookup k ((albumKey nf, acc.next) :: acc.album_map) = none
            rw [alookup, if_neg hkey]
            exact hknone
          have hfind : (nf :: rest).find? (fun nf' => albumKey nf' = k)
              = rest.find? (fun nf' => albumKey nf' = k) :=
            List.find?_cons_of_neg _ (by simpa using fun h => hkey h.symm)
          rw [hfind]
          exact ih5 k id hk' hksome
      · intro e he
        rcases ih6 e he with hmem | hfresh
        · rw [hacc'] at hmem
          rcases List.mem_cons.mp hmem with rfl | hold
          · exact Or.inr (Nat.le_refl _)
          · exact Or.inl hold
        · exact Or.inr (Nat.le_trans (Nat.le_succ _) hfresh)

/-- Claim C7: the stager produces exactly one staged album per distinct
`(album_title, album_directory)` key among the new files — the key set of
`album_map` is exactly the keys occurring in `new_files`, duplicate-free,
and the staged album list is its 1-to-1 image — each album carries a
freshly minted id (pairwise distinct and drawn from the fresh supply), and
each album's year is the metadata year of the first new file in iteration
order with that key; later files with the same key never overwrite it. -/
theorem collect_albums_one_album_per_key (nfs : List NewFileData) (start : Nat) :
    ((collect_albums nfs start).album_map.map Prod.fst).Nodup
    ∧ ((collect_albums nfs start).album_map.map Prod.snd).Nodup
    ∧ (∀ e ∈ (collect_albums nfs start).album_map, start ≤ e.2)
    ∧ (∀ k, (alookup k (collect_albums nfs start).album_map).isSome
        ↔ ∃ nf ∈ nfs, albumKey nf = k)
    ∧ (∀ k id, alookup k (collect_albums nfs start).album_map = some id →
        alookup id (collect_albums nfs start).album_years
          = (nfs.find? (fun nf => albumKey nf = k)).map
              (fun nf => nf.metadata.year))
    ∧ staging_albums_of (collect_albums nfs start)
        = (collect_albums nfs start).album_map.map (fun pr =>
            { id := pr.2, title := pr.1.1,
              year := ((nfs.find? (fun nf => albumKey nf = pr.1)).map
                  (fun nf => nf.metadata.year)).getD none }) := by
  unfold collect_albums
  have hinv0 : AccInv ⟨[], [], start⟩ := by
    constructor <;> simp
  obtain ⟨h1, _, h3, _, h5, h6⟩ :=
    collect_albums_from_spec nfs ⟨[], [], start⟩ hinv0
  refine ⟨h1.keys_nodup, h1.ids_nodup, ?_, ?_, ?_, ?_⟩
  · intro e he
    rcases h6 e he with hmem | hok
    · cases hmem
    · exact hok
  · intro k
    rw [h3 k]
    constructor
    · rintro (hk | hk)
      · simp [alookup] at hk
      · exact hk
    · exact Or.inr
  · intro k id hk
    exact h5 k id rfl hk
  · unfold staging_albums_of
    apply List.map_congr_left
    intro pr hpr
    have hself : alookup pr.1
        (collect_albums_from ⟨[], [], start⟩ nfs).album_map = some pr.2 :=
      alookup_self_of_nodup h1.keys_nodup hpr
    rw [h5 pr.1 pr.2 rfl hself]

/-- Two new files sharing the album key `("A", ["Music", "A"])` with
different years. -/
def nfW1 : NewFileData :=
  { path := "Music/A/01.flac", hash := 1, size := 1, duration := 0, mtime := 0,
    format := "flac",
    metadata := { title := "One", track_number := some 1, disc_number := none,
                  genre := "", album := "A", year := some 1999, artists := [] } }

/-- Second file with the same album key as `nfW1` but a later year. -/
def nfW2 : NewFileData :=
  { path := "Music/A/02.flac", hash := 2, size := 1, duration := 0, mtime := 0,
    format := "flac",
    metadata := { title := "Two", track_number := some 2, disc_number := none,
                  genre := "", album := "A", year := some 2005, artists := [] } }

/-- Witness for C7: with two files sharing one key, the single album's
year is the first file's 1999 — the second file's 2005 does not
overwrite. -/
theorem collect_albums_one_album_per_key_witness :
    alookup 0 (collect_albums [nfW1, nfW2] 0).album_years
      = ([nfW1, nfW2].find? (fun nf => albumKey nf = albumKey nfW1)).map
          (fun nf => nf.metadata.year) :=
  (collect_albums_one_album_per_key [nfW1, nfW2] 0).2.2.2.2.1
    (albumKey nfW1) 0 (by decide)

/-- Every staged track's `album` field is the `album_map` lookup of the
key of some staged new file. -/
theorem stage_new_files_album (am : List (AlbumKey × Nat))
    (aa : List (String × Nat)) :
    ∀ (nfs : List NewFileData) (ctr : Nat) (t : StagingTrack),
      t ∈ (stage_new_files am aa nfs ctr).2.1 →
      ∃ nf ∈ nfs, t.album = alookup (albumKey nf) am := by
  intro nfs
  induction nfs with
  | nil =>
    intro ctr t ht
    simp [stage_new_files] at ht
  | cons nf rest ih =>
    intro ctr t ht
    simp only [stage_new_files] at ht
    rcases List.mem_cons.mp ht with rfl | hmem
    · exact ⟨nf, List.mem_cons_self _ _, rfl⟩
    · obtain ⟨nf', hnf', halb⟩ := ih (ctr + 2) t hmem
      exact ⟨nf', List.mem_cons_of_mem _ hnf', halb⟩

/-- Claim C10: every track staged for a new file has a non-null `album`:
its key — the (possibly empty) album tag paired with the album directory —
was inserted into `album_map` by `collect_albums` over the same new-file
list, so the lookup the stager stores always succeeds. -/
theorem staged_track_album_nonnull (results : ScanResults)
    (existing_artists : List (String × Nat)) (deleted_ids : List FileId)
    (c0 : Nat) :
    ∀ t ∈ (prepare_staging_data results existing_artists deleted_ids c0).tracks,
      t.album.isSome := by
  intro t ht
  have ht' : t ∈ (stage_new_files
      (collect_albums results.new_files
        (collect_artists_from (existing_artists, [], c0) results.new_files).2.2).album_map
      (collect_artists_from (existing_artists, [], c0) results.new_files).1
      results.new_files
      (collect_albums results.new_files
        (collect_artists_from (existing_artists, [], c0) results.new_files).2.2).next).2.1 :=
    ht
  obtain ⟨nf, hnf, halb⟩ := stage_new_files_album _ _ results.new_files _ t ht'
  rw [halb]
  have hinv0 : AccInv ⟨[], [],
      (collect_artists_from (existing_artists, [], c0) results.new_files).2.2⟩ := by
    constructor <;> simp
  obtain ⟨_, _, h3, _, _, _⟩ :=
    collect_albums_from_spec results.new_files _ hinv0
  exact (h3 (albumKey nf)).mpr (Or.inr ⟨nf, hnf, rfl⟩)

/-- A new file carrying no album tag (empty album string). -/
def nfW3 : NewFileData :=
  { path := "X/01.mp3", hash := 3, size := 1, duration := 0, mtime := 0,
    format := "mp3",
    metadata := { title := "T", track_number := none, disc_number := none,
                  genre := "", album := "", year := none, artists := [] } }

/-- Witness for C10: the track staged for a file with an empty album tag
still gets `album = some 0`, the id minted for the key `("", ["X"])`. -/
theorem staged_track_album_nonnull_witness :
    (⟨2, 1, "T", some 0, none, none, ""⟩ : StagingTrack).album.isSome :=
  staged_track_album_nonnull ⟨[], [], [], [nfW3]⟩ [] [] 0
    ⟨2, 1, "T", some 0, none, none, ""⟩ (by decide)

/-- `symphonia`'s tag `Value`.  The `float` payload is the `i64` the source
produces by `*v as i64` (truncation toward zero), so no floating-point
arithmetic is modelled. -/
inductive TagValue : Type where
  | binary
  | boolean (b : Bool)
  | flag
  | float (truncated : Int)
  | signedInt (v : Int)
  | unsignedInt (v : Nat)
  | str (s : String)
deriving DecidableEq

/-- The `StandardTagKey`s `assemble_tags_into_metadata` matches on;
`other` stands for every key handled by the source's `_ => {}` arm. -/
inductive StdKey : Type where
  | artist
  | trackTitle
  | album
  | genre
  | date
  | trackNumber
  | discNumber
  | other
deriving DecidableEq

/-- A `symphonia` `Tag`: its recognized standard key (if any) and value. -/
structure Tag where
  std_key : Option StdKey
  value : TagValue
deriving DecidableEq

/-- The suffix of a character list starting at its first ASCII digit
(Rust `v.find(|c| c.is_ascii_digit())`), `none` when there is none. -/
def afterFirstDigit : List Char → Option (List Char)
  | [] => none
  | c :: cs => if c.isDigit then some (c :: cs) else afterFirstDigit cs

/-- The leading ASCII-digit run of a character list. -/
def leadingDigits : List Char → List Char
  | [] => []
  | c :: cs => if c.isDigit then c :: leadingDigits cs else []

/-- Numeric value of a digit run. -/
def digitsToNat (l : List Char) : Nat :=
  l.foldl (fun acc c => acc * 10 + (c.toNat - '0'.toNat)) 0

/-- `metadata.rs` `parse_tag_value_into_u8` (lines 27–41): numeric values
via `u8::try_from`, strings via the leading digit run after the first
digit (`3/12` parses to 3; a run exceeding 255 fails as Rust's
`parse::<u8>` does).  Character indices model the source's byte indices;
they agree whenever the text around the digit run is ASCII. -/
def parse_tag_value_into_u8 (value : TagValue) : Option Nat :=
  match value with
  | .binary | .boolean _ | .flag => none
  | .float v => if 0 ≤ v ∧ v ≤ 255 then some v.toNat else none
  | .signedInt v => if 0 ≤ v ∧ v ≤ 255 then some v.toNat else none
  | .unsignedInt v => if v ≤ 255 then some v else none
  | .str v =>
    match afterFirstDigit v.data with
    | none => none
    | some rest =>
      if digitsToNat (leadingDigits rest) ≤ 255
      then some (digitsToNat (leadingDigits rest)) else none

/-- The string arm of `parse_tag_value_into_year` (lines 51–55): up to four
characters starting at the first ASCII digit, parsed as a number — any
non-digit inside the window makes `parse::<u16>` fail.  Character indices
model the source's byte indices (they agree on ASCII text). -/
def yearFromString (s : String) : Option Nat :=
  match afterFirstDigit s.data with
  | none => none
  | some rest =>
    if (rest.take 4).all Char.isDigit
    then some (digitsToNat (rest.take 4)) else none

/-- The `match` of `metadata.rs` `parse_tag_value_into_year` (lines 46–56),
before the range check: the candidate year from a tag value. -/
def parse_tag_value_into_year_raw (value : TagValue) : Option Nat :=
  match value with
  | .binary | .boolean _ | .flag => none
  | .float v => if 0 ≤ v ∧ v ≤ 65535 then some v.toNat else none
  | .signedInt v => if 0 ≤ v ∧ v ≤ 65535 then some v.toNat else none
  | .unsignedInt v => if v ≤ 65535 then some v else none
  | .str v => yearFromString v

/-- `metadata.rs` `parse_tag_value_into_year` (lines 43–59): the parsed
candidate filtered by `(year > 1860 && year <= current_year + 1)`.  The
source reads `current_year` from the wall clock; it is a parameter here. -/
def parse_tag_value_into_year (current_year : Nat) (value : TagValue) :
    Option Nat :=
  (parse_tag_value_into_year_raw value).bind
    (fun year =>
      if 1860 < year ∧ year ≤ current_year + 1 then some year else none)

/-- `metadata.rs` `append_string_value` (lines 67–73): append a string
value not already accumulated, preserving first-seen order. -/
def append_string_value (value : TagValue) (container : List String) :
    List String :=
  match value with
  | .str v => if v ∈ container then container else container ++ [v]
  | _ => container

/-- The mutable accumulators of `assemble_tags_into_metadata`'s loop
(lines 62–77). -/
structure TagAcc where
  artist_values : List String
  title_values : List String
  album_values : List String
  genre_values : List String
  date_value : Option Nat
  track_number_value : Option Nat
  disk_number_value : Option Nat
deriving DecidableEq

/-- One iteration of the `for tag in tags` loop (lines 79–100): tags with
no recognized standard key are skipped; `Date`, `TrackNumber` and
`DiscNumber` keep the first successfully parsed value (`or_else`). -/
def tag_step (current_year : Nat) (acc : TagAcc) (tag : Tag) : TagAcc :=
  match tag.std_key with
  | none => acc
  | some key =>
    match key with
    | .artist =>
      { acc with artist_values := append_string_value tag.value acc.artist_values }
    | .trackTitle =>
      { acc with title_values := append_string_value tag.value acc.title_values }
    | .album =>
      { acc with album_values := append_string_value tag.value acc.album_values }
    | .genre =>
      { acc with genre_values := append_string_value tag.value acc.genre_values }
    | .date =>
      { acc with
          date_value :=
            orOpt acc.date_value (parse_tag_value_into_year current_year tag.value) }
    | .trackNumber =>
      { acc with
          track_number_value :=
            orOpt acc.track_number_value (parse_tag_value_into_u8 tag.value) }
    | .discNumber =>
      { acc with
          disk_number_value :=
            orOpt acc.disk_number_value (parse_tag_value_into_u8 tag.value) }
    | .other => acc

/-- `metadata.rs` `assemble_tags_into_metadata` (lines 61–113): fold the
loop over the tag stream and build the `TrackMetadata`, multi-valued tags
joined with a comma and a space. -/
def assemble_tags_into_metadata (current_year : Nat) (tags : List Tag) :
    TrackMetadata :=
  let acc := tags.foldl (tag_step current_year) ⟨[], [], [], [], none, none, none⟩
  { title := String.intercalate ", " acc.title_values,
    track_number := acc.track_number_value,
    disc_number := acc.disk_number_value,
    genre := String.intercalate ", " acc.genre_values,
    album := String.intercalate ", " acc.album_values,
    year := acc.date_value,
    artists := acc.artist_values.map (fun artist => ⟨artist, none⟩) }

/-- `orOpt` is associative. -/
theorem orOpt_assoc {α : Type} (a b c : Option α) :
    orOpt (orOpt a b) c = orOpt a (orOpt b c) := by
  cases a <;> rfl

/-- `orOpt` with an absent second choice. -/
theorem orOpt_none_right {α : Type} (a : Option α) : orOpt a none = a := by
  cases a <;> rfl

/-- `head?` of a `filterMap` peels one element as an `orOpt`. -/
theorem head?_filterMap_cons {α β : Type} (f : α → Option β) (t : α)
    (ts : List α) :
    ((t :: ts).filterMap f).head? = orOpt (f t) ((ts.filterMap f).head?) := by
  cases h : f t <;> simp [List.filterMap_cons, h, orOpt]

/-- The folded `date_value` is the first successful in-range parse among
the `Date` tags, behind whatever the accumulator already held. -/
theorem foldl_tag_step_date (cy : Nat) :
    ∀ (tags : List Tag) (acc : TagAcc),
      (tags.foldl (tag_step cy) acc).date_value
        = orOpt acc.date_value
            ((tags.filterMap (fun t =>
                if t.std_key = some StdKey.date
                then parse_tag_value_into_year cy t.value else none)).head?)
  | [], acc => by
    rw [List.foldl_nil, List.filterMap_nil]
    exact (orOpt_none_right _).symm
  | t :: rest, acc => by
    rw [List.foldl_cons, foldl_tag_step_date cy rest (tag_step cy acc t),
      head?_filterMap_cons]
    cases ht : t.std_key with
    | none =>
      simp only [tag_step, ht, reduceIte]
      rfl
    | some key =>
      cases key
      case date =>
        simp only [tag_step, ht, reduceIte]
        exact orOpt_assoc _ _ _
      all_goals simp only [tag_step, ht, reduceIte]
      all_goals rfl

/-- Claim C8: the extracted year is the first `Date` tag (in stream order)
whose value parses to a candidate year lying in `(1860, currentYear + 1]`;
a `Date` tag whose candidate falls outside the range contributes nothing
and the next `Date` tag is tried; with no such tag the year is `none`. -/
theorem year_is_first_in_range_date (cy : Nat) (tags : List Tag) :
    (assemble_tags_into_metadata cy tags).year
      = ((tags.filter (fun t => t.std_key = some StdKey.date)).filterMap
          (fun t => (parse_tag_value_into_year_raw t.value).bind
            (fun y => if 1860 < y ∧ y ≤ cy + 1 then some y else none))).head? := by
  have h1 : (assemble_tags_into_metadata cy tags).year
      = (tags.foldl (tag_step cy) ⟨[], [], [], [], none, none, none⟩).date_value :=
    rfl
  rw [h1, foldl_tag_step_date]
  show (tags.filterMap (fun t =>
      if t.std_key = some StdKey.date
      then parse_tag_value_into_year cy t.value else none)).head? = _
  have h2 : ∀ ts : List Tag,
      ts.filterMap (fun t =>
        if t.std_key = some StdKey.date
        then parse_tag_value_into_year cy t.value else none)
      = (ts.filter (fun t => t.std_key = some StdKey.date)).filterMap
          (fun t => parse_tag_value_into_year cy t.value) := by
    intro ts
    induction ts with
    | nil => rfl
    | cons t rest ih =>
      by_cases ht : t.std_key = some StdKey.date <;>
        simp [List.filterMap_cons, List.filter_cons, ht, ih]
  rw [h2]
  rfl

/-- The response the `POST /query` handler commits to: status, the
content-type header it sets, and (for errors) the error-text body.  The
`200` body is streamed after the header; only the pre-streaming decision
is modelled. -/
structure QueryResponse where
  status : Nat
  contentType : Option String
  errorBody : Option String
deriving DecidableEq

/-- The synchronous pre-streaming phase of `server.rs` `query`
(lines 69–86): `conn.prepare(&body)` then `stmt.query_arrow([])`, each
fallible with an error string; the ready signal is sent only after both
succeed.  `σ` is the prepared statement, `β` the batch iterator. -/
def prepare_and_plan {σ β : Type} (prep : Except String σ)
    (run : σ → Except String β) : Except String β :=
  match prep with
  | .error e => .error e
  | .ok stmt => run stmt

/-- `server.rs` `query` (lines 59–120), the response decision: an error in
either pre-streaming step is sent through the one-shot and answered with
`400` and the error text; success is answered with `200` and the Arrow
stream media type before any result bytes are produced.  (The worker-panic
`500` arm is outside this model, as the claim excludes it.) -/
def query_response {σ β : Type} (prep : Except String σ)
    (run : σ → Except String β) : QueryResponse :=
  match prep with
  | .error e => { status := 400, contentType := none, errorBody := some e }
  | .ok stmt =>
    match run stmt with
    | .error e => { status := 400, contentType := none, errorBody := some e }
    | .ok _ =>
      { status := 200,
        contentType := some "application/vnd.apache.arrow.stream",
        errorBody := none }

/-- Claim C9: per request, when the preparation phase (parse + plan, the
work done synchronously before the response header: `conn.prepare` and
`stmt.query_arrow`) fails, the handler responds 400 with the error text as
body; when it succeeds, the handler responds 200 with content-type
`application/vnd.apache.arrow.stream`, fixed before any result bytes are
streamed; and exactly one of the two outcomes occurs (absent a worker
panic, whose arm is not modelled). -/
theorem query_response_contract {σ β : Type} (prep : Except String σ)
    (run : σ → Except String β) :
    (∀ e, prepare_and_plan prep run = .error e →
      query_response prep run
        = { status := 400, contentType := none, errorBody := some e })
    ∧ (∀ b, prepare_and_plan prep run = .ok b →
      query_response prep run
        = { status := 200,
            contentType := some "application/vnd.apache.arrow.stream",
            errorBody := none })
    ∧ ((query_response prep run).status = 400
        ∨ (query_response prep run).status = 200)
    ∧ ((query_response prep run).status ≠ 400
        ∨ (query_response prep run).status ≠ 200) := by
  cases prep with
  | error e =>
    refine ⟨?_, ?_, Or.inl rfl, by simp [query_response, prepare_and_plan]⟩
    · intro e' he'
      rw [show e' = e from (Except.error.inj he').symm]
      rfl
    · intro b hb
      exact absurd hb (by simp [prepare_and_plan])
  | ok stmt =>
    cases hr : run stmt with
    | error e =>
      refine ⟨?_, ?_, ?_, ?_⟩
      · intro e' he'
        have : e' = e := by
          rw [prepare_and_plan, hr] at he'
          exact (Except.error.inj he').symm
        rw [this]
        simp [query_response, hr]
      · intro b hb
        rw [prepare_and_plan, hr] at hb
        cases hb
      · exact Or.inl (by simp [query_response, hr])
      · simp [query_response, hr]
    | ok b =>
      refine ⟨?_, ?_, ?_, ?_⟩
      · intro e' he'
        rw [prepare_and_plan, hr] at he'
        cases he'
      · intro b' _
        simp [query_response, hr]
      · exact Or.inr (by simp [query_response, hr])
      · simp [query_response, hr]

/-- Witness for C9 at a failing preparation: the response is a 400 whose
body is the preparation error text, and at a successful one: a 200 with
the Arrow stream content-type. -/
theorem query_response_contract_witness :
    query_response (Except.error "syntax error")
        (fun _ : Unit => (Except.ok () : Except String Unit))
      = { status := 400, contentType := none, errorBody := some "syntax error" }
    ∧ query_response (Except.ok ())
        (fun _ : Unit => (Except.ok () : Except String Unit))
      = { status := 200,
          contentType := some "application/vnd.apache.arrow.stream",
          errorBody := none } :=
  ⟨(query_response_contract (Except.error "syntax error")
      (fun _ : Unit => (Except.ok () : Except String Unit))).1
        "syntax error" rfl,
   (query_response_contract (Except.ok ())
      (fun _ : Unit => (Except.ok () : Except String Unit))).2.1 () rfl⟩

end Collectune
